import Mathlib

/-!
Verification development for a minimal HTTP/1.1 static-file server
(Rust sources: `src/lib.rs`, `src/server/{files,request,response,threadpool}.rs`).

The filesystem, the wall clock and the TCP stream are modelled as explicit
parameters; every server function is translated into a pure, executable Lean
definition that mirrors the Rust control flow statement by statement.
Paths are modelled as strings with Unix separators, and the handful of
`std::path::Path` operations the server uses (`extension`, `with_extension`,
`join`, `file_name`-based truncation) are implemented on strings following
their documented Unix semantics.
-/

namespace HttpServer

/-! ### Path-string helpers (Unix semantics of the `std::path` operations used) -/

/-- Drop, from a reversed character list (i.e. from the end of a path string),
trailing `/` separators and trailing `.` (current-dir) components, stopping at
the end of the path's file name.  This is the truncation point
`Path::set_extension` uses, and the suffix after it is `Path::file_name`. -/
def dropTrailJunk : List Char → List Char
  | [] => []
  | '/' :: r => dropTrailJunk r
  | '.' :: '/' :: r => dropTrailJunk r
  | ['.'] => []
  | l => l

/-- The path with everything after the end of its file name removed
(trailing separators and `.` components stripped). -/
def truncatedAtFileName (s : String) : String :=
  String.mk (dropTrailJunk s.data.reverse).reverse

/-- `Path::file_name` on Unix: the last non-`.` component, `none` for paths
ending in `..`, for the root and for the empty path. -/
def pathFileName (s : String) : Option String :=
  let r := dropTrailJunk s.data.reverse
  let comp := r.takeWhile (· ≠ '/')
  if comp.isEmpty then none
  else if comp = ['.', '.'] then none
  else some (String.mk comp.reverse)

/-- Extension of a file name: the portion after the last `.`, `none` when
there is no `.` or the only `.` is the leading character. -/
def extOfFileName (f : String) : Option String :=
  let e := (f.data.reverse.takeWhile (· ≠ '.')).reverse
  if e.length = f.data.length then none
  else if f.data.length = e.length + 1 then none
  else some (String.mk e)

/-- `Path::extension` on Unix. -/
def pathExtension (s : String) : Option String :=
  match pathFileName s with
  | none => none
  | some f => extOfFileName f

/-- `Path::with_extension("html")` on Unix: replace (here: attach, since the
server only calls it on extension-less paths) the extension of the file name;
a path without a file name is returned unchanged. -/
def withExtensionHtml (s : String) : String :=
  match pathFileName s with
  | none => s
  | some f =>
    let t := truncatedAtFileName s
    let stem := match extOfFileName f with
      | none => t
      | some e => String.mk (t.data.take (t.data.length - (e.data.length + 1)))
    stem ++ ".html"

/-- `Path::join` with a relative right operand on Unix (`PathBuf::push`). -/
def pathJoin (p q : String) : String :=
  if p.isEmpty then q
  else if p.data.getLast? = some '/' then p ++ q
  else p ++ "/" ++ q

/-- `str::strip_prefix(&['/', '\\'][..])` with `unwrap_or`: remove one
leading `/` or `\` if present (`files.rs`, `HttpContent::new`). -/
def stripLeadingSep (s : String) : String :=
  match s.data with
  | c :: rest => if c = '/' ∨ c = '\\' then String.mk rest else s
  | [] => s

/-! ### Filesystem model -/

/-- The filesystem as seen through the operations the server performs.
Canonical paths are modelled as component lists, matching the component-wise
`Path::starts_with` used by the sandbox check.  `canonicalize` returns `none`
exactly when the OS call would error (nonexistent path, permission, race);
`readFile` returns `none` exactly when `File::open`/`read_to_end` would. -/
structure FS where
  isFile : String → Bool
  isDir : String → Bool
  canonicalize : String → Option (List String)
  readFile : String → Option (List Nat)

/-! ### `files.rs` -/

/-- `resolve_file_path` (`files.rs` lines 88–103), verbatim: the second arm
tests `path.with_extension("html").is_file()` but returns the input with
`".html"` string-appended (`validated.push_str(".html")`); the third arm
returns `path.join("index.html")` (its `to_str` never fails in this model). -/
def resolve_file_path (fs : FS) (path : String) : Option String :=
  if fs.isFile path then some path
  else if pathExtension path = none ∧ fs.isFile (withExtensionHtml path) then
    some (path ++ ".html")
  else if fs.isDir path ∧ fs.isFile (pathJoin path "index.html") then
    some (pathJoin path "index.html")
  else none

/-- `in_serve_folder` (`files.rs` lines 105–123): canonicalize the root and
the candidate, failing closed on either error, then require the canonical
candidate to have the canonical root as a component-wise path prefix. -/
def in_serve_folder (fs : FS) (root path : String) : Bool :=
  match fs.canonicalize root with
  | none => false
  | some canonRoot =>
    match fs.canonicalize path with
    | none => false
    | some canonPath => canonRoot.isPrefixOf canonPath

/-- A file in the served folder (`files.rs`, `struct HttpContent`). -/
structure HttpContent where
  file_path : String
deriving DecidableEq, Repr

/-- The candidate path `HttpContent::new` builds before resolution:
`format!("{}/{}", serve_path, content_path)` after stripping one leading
separator from `content_path`. -/
def combinedPath (serve_path content_path : String) : String :=
  serve_path ++ "/" ++ stripLeadingSep content_path

/-- `HttpContent::new` (`files.rs` lines 20–29). -/
def HttpContent.new (fs : FS) (serve_path content_path : String) :
    Option HttpContent :=
  match resolve_file_path fs (combinedPath serve_path content_path) with
  | none => none
  | some file_path =>
    if in_serve_folder fs serve_path file_path then
      some { file_path }
    else
      none

/-- `HttpContent::get_bytes`: read the resolved file, `none` on I/O error. -/
def HttpContent.get_bytes (fs : FS) (c : HttpContent) : Option (List Nat) :=
  fs.readFile c.file_path

/-- `struct ContentHeaders` (`files.rs`). -/
structure ContentHeaders where
  content_type : String
  cache_age : Nat
  compress : Bool
deriving DecidableEq, Repr

/-- The extension string `content_headers` matches on: `Path::extension`
with both the "no extension" and the "not valid unicode" fallbacks mapped
to `""` (`files.rs` lines 42–48). -/
def extString (p : String) : String :=
  match pathExtension p with
  | some y => y
  | none => ""

/-- The extensions with a dedicated row in the `content_headers` table. -/
def knownExts : List String :=
  ["html", "css", "js", "txt", "json", "svg", "webp", "jpg", "jpeg",
   "ico", "png", "otf", "ttf", "mp4", "mp3"]

/-- `HttpContent::content_headers` (`files.rs` lines 41–75): the static
extension table, with the source's `min`/`hour`/`day` constants. -/
def HttpContent.content_headers (c : HttpContent) : ContentHeaders :=
  let ext := extString c.file_path
  let min := 60
  let hour := 3600
  let day := 86400
  let t : String × Nat × Bool :=
    if ext = "html" then ("text/html; charset=UTF-8", min, true)
    else if ext = "css" then ("text/css; charset=UTF-8", 3 * day, true)
    else if ext = "js" then ("text/javascript; charset=UTF-8", 3 * day, true)
    else if ext = "txt" then ("text/plain; charset=UTF-8", min, true)
    else if ext = "json" then ("application/json; charset=UTF-8", hour, true)
    else if ext = "svg" then ("image/svg+xml; charset=UTF-8", 7 * day, true)
    else if ext = "webp" then ("image/webp", 3 * day, false)
    else if ext = "jpg" ∨ ext = "jpeg" then ("image/jpeg", 3 * day, false)
    else if ext = "ico" then ("image/x-icon", 7 * day, false)
    else if ext = "png" then ("image/png", 3 * day, false)
    else if ext = "otf" then ("font/otf", 7 * day, true)
    else if ext = "ttf" then ("font/ttf", 7 * day, true)
    else if ext = "mp4" then ("video/mp4", day, false)
    else if ext = "mp3" then ("audio/mp3", day, false)
    else ("application/octet-stream", min, false)
  { content_type := t.1, cache_age := t.2.1, compress := t.2.2 }

/-! ### String helpers

Structural (kernel-reducible) implementations of the `str` operations the
server uses: `split` on a single character, `split` on the two-character
CRLF, `trim`, `trim_start`, `starts_with`. -/

/-- `str::split(sep)` for a one-character pattern. -/
def splitOnChar (sep : Char) : List Char → List (List Char)
  | [] => [[]]
  | c :: rest =>
    if c = sep then [] :: splitOnChar sep rest
    else
      match splitOnChar sep rest with
      | [] => [[c]]
      | h :: t => (c :: h) :: t

/-- `str::split("\r\n")`: non-overlapping left-to-right scan. -/
def splitOnCRLF : List Char → List (List Char)
  | [] => [[]]
  | '\r' :: '\n' :: rest => [] :: splitOnCRLF rest
  | c :: rest =>
    match splitOnCRLF rest with
    | [] => [[c]]
    | h :: t => (c :: h) :: t

/-- Join string pieces with a separator (inverse of a full split). -/
def joinSep (sep : String) : List String → String
  | [] => ""
  | [x] => x
  | x :: xs => x ++ sep ++ joinSep sep xs

/-- `str::trim`: drop whitespace from both ends. -/
def trimStr (s : String) : String :=
  String.mk
    (((s.data.dropWhile Char.isWhitespace).reverse.dropWhile
      Char.isWhitespace).reverse)

/-- `str::trim_start`: drop whitespace from the start. -/
def trimStart (s : String) : String :=
  String.mk (s.data.dropWhile Char.isWhitespace)

/-- `str::starts_with` for a string pattern. -/
def startsWithStr (pat s : String) : Bool :=
  pat.data.isPrefixOf s.data

/-! ### Header maps

The Rust code keeps request and response headers in a `HashMap`.  A hash map
is modelled as an association list with overwriting insertion; lookup finds
the unique binding of a key.  Iteration order of a Rust `HashMap` is
unspecified, so the list order here is one admissible determinization (the
spec declares wire order of headers non-contractual). -/

/-- `HashMap::insert`: overwrite an existing binding, else append. -/
def insertH (hs : List (String × String)) (k v : String) :
    List (String × String) :=
  if hs.any (fun p => p.1 = k) then
    hs.map (fun p => if p.1 = k then (k, v) else p)
  else
    hs ++ [(k, v)]

/-- `HashMap::get`. -/
def getH (hs : List (String × String)) (k : String) : Option String :=
  (hs.find? (fun p => p.1 = k)).map (fun p => p.2)

/-! ### `request.rs` -/

/-- `str::splitn(3, ' ')`: like `split(' ')` but the third piece keeps the
rest of the string unsplit. -/
def splitn3Sp (s : String) : List String :=
  match (splitOnChar ' ' s.data).map String.mk with
  | a :: b :: c :: rest => [a, b, joinSep " " (c :: rest)]
  | xs => xs

/-- `str::splitn(2, ":")`: split on the first colon only. -/
def splitn2Colon (s : String) : List String :=
  match (splitOnChar ':' s.data).map String.mk with
  | a :: b :: rest => [a, joinSep ":" (b :: rest)]
  | xs => xs

/-- A parsed HTTP request (`request.rs`, `struct Request`). -/
structure Request where
  method : String
  path : String
  protocol : String
  headers : List (String × String)
deriving DecidableEq, Repr

/-- `Request::parse` (`request.rs` lines 22–44), verbatim: split the buffer
on the first two spaces; on exactly three pieces, split the third on CRLF,
collect the colon-bearing tail lines as trimmed header pairs, and succeed
iff the CRLF split produced more than one element. -/
def Request.parse (req : String) : Option Request :=
  match splitn3Sp req with
  | [m, p, rest] =>
    match (splitOnCRLF rest.data).map String.mk with
    | [] => none
    | proto :: hlines =>
      let headers := hlines.foldl
        (fun acc line =>
          match splitn2Colon line with
          | [k, v] => insertH acc (trimStr k) (trimStr v)
          | _ => acc) []
      if hlines.isEmpty then none
      else some { method := m, path := p, protocol := proto, headers }
  | _ => none

/-! ### `response.rs` -/

/-- `enum HttpStatus` (`response.rs`). -/
inductive HttpStatus where
  | Ok
  | NotFound
  | BadRequest
  | NotAllowed
  | ServerError
  | UnsupportedVersion
deriving DecidableEq, Repr

/-- `Response::status_to_string`. -/
def status_to_string : HttpStatus → String
  | .Ok => "200 OK"
  | .NotFound => "404 NOT FOUND"
  | .BadRequest => "400 BAD REQUEST"
  | .NotAllowed => "405 METHOD NOT ALLOWED"
  | .ServerError => "500 INTERNAL SERVER ERROR"
  | .UnsupportedVersion => "505 HTTP VERSION NOT SUPPORTED"

/-- `struct Response` (`response.rs`). -/
structure Response where
  status : HttpStatus
  protocol : String
  headers : List (String × String)
  payload : List Nat
deriving DecidableEq, Repr

/-- `Response::new`: fixed `HTTP/1.1` protocol, empty headers. -/
def Response.new (status : HttpStatus) (payload : List Nat) : Response :=
  { status, protocol := "HTTP/1.1", headers := [], payload }

/-- `Response::headers_to_string`: status line, then one `name: value` CRLF
line per header, then a blank line. -/
def Response.headers_to_string (r : Response) : String :=
  r.protocol ++ " " ++ status_to_string r.status ++ "\r\n"
    ++ String.join (r.headers.map (fun kv => kv.1 ++ ": " ++ kv.2 ++ "\r\n"))
    ++ "\r\n"

/-- `Response::set_default_headers`; the formatted current time is the
explicit parameter `now`. -/
def Response.set_default_headers (r : Response) (now : String) : Response :=
  let headers := insertH r.headers "Connection" "close"
  let headers := insertH headers "Content-Length" (toString r.payload.length)
  let headers := insertH headers "Date" now
  let headers := insertH headers "Permissions-Policy" "interest-cohort=()"
  { r with headers }

/-- `Response::set_content_headers`. -/
def Response.set_content_headers (r : Response) (h : ContentHeaders) :
    Response :=
  let headers := insertH r.headers "Content-Type" h.content_type
  let headers := insertH headers "Cache-Control"
    ("max-age=" ++ toString h.cache_age)
  { r with headers }

/-- Modelled from the spec: the gzip encoder (`flate2::write::GzEncoder`,
default compression) is external library code whose sources are not part of
this repository; it is modelled as an executable, prefix-framed encoding of
the payload bytes, with `gzipDecode` as the matching decompressor. -/
def gzipEncode (b : List Nat) : List Nat := 31 :: 139 :: b

/-- Modelled from the spec: gzip decompression, the inverse of the modelled
encoder (strips the frame after checking the gzip magic bytes). -/
def gzipDecode (d : List Nat) : Option (List Nat) :=
  match d with
  | 31 :: 139 :: rest => some rest
  | _ => none

/-- `Response::compress_gzip` (`response.rs` lines 89–100): replace the
payload with its gzip encoding, set `Content-Encoding` and `Vary`, then
overwrite `Content-Length` with the compressed length.  (The `io::Result`
it returns is an error only if the encoder fails; the modelled encoder,
writing to an in-memory buffer, always succeeds.) -/
def Response.compress_gzip (r : Response) : Response :=
  let payload := gzipEncode r.payload
  let headers := insertH r.headers "Content-Encoding" "gzip"
  let headers := insertH headers "Vary" "Accept-Encoding"
  let headers := insertH headers "Content-Length" (toString payload.length)
  { r with payload, headers }

/-- What `Response::send` (`response.rs` lines 103–108) puts on the wire:
the serialized status line and headers, then — unconditionally in the
source, which has no body switch — the payload bytes. -/
structure Wire where
  head : String
  body : List Nat
deriving DecidableEq, Repr

/-- `Response::send` as written in `response.rs`: writes
`headers_to_string` followed by `write_all(&self.payload)`; it takes no
`include_body` parameter and always sends the payload. -/
def Response.send (r : Response) : Wire :=
  { head := r.headers_to_string, body := r.payload }

/-! ### `lib.rs` -/

/-- The bytes of an ASCII string literal such as
`b"500 Internal Server Error"`. -/
def strBytes (s : String) : List Nat := s.data.map Char.toNat

/-- The `accepts_gzip` computation in `handle_connection` (`lib.rs`):
exact-case lookup of `Accept-Encoding`, split on commas, any piece whose
start (after trimming leading whitespace) is `gzip`. -/
def acceptsGzip (headers : List (String × String)) : Bool :=
  match getH headers "Accept-Encoding" with
  | none => false
  | some encodings =>
    ((splitOnChar ',' encodings.data).map String.mk).any
      (fun s => startsWithStr "gzip" (trimStart s))

/-- The observable effect of one `respond` call (`lib.rs` lines 208–234):
the fully built response, the wire output of `Response::send`, and the
`include_body` flag the caller passed to `send` (which the `send` in
`response.rs` does not accept — see `Response.send`). -/
structure Sent where
  resp : Response
  wire : Wire
  includeBody : Bool
deriving DecidableEq, Repr

/-- `respond` (`lib.rs` lines 208–234): build the response, set default
headers, then content headers and (iff `compress`) gzip, and send. -/
def respond (now : String) (bytebuffer : List Nat)
    (content_headers : Option ContentHeaders) (status : HttpStatus)
    (include_body : Bool) : Sent :=
  let response := Response.new status bytebuffer
  let response := response.set_default_headers now
  let response :=
    match content_headers with
    | some headers =>
      let response := response.set_content_headers headers
      if headers.compress then response.compress_gzip else response
    | none => response
  { resp := response, wire := response.send, includeBody := include_body }

/-- `server_error` (`lib.rs` lines 153–166): 500 with a fixed plain-text
body and a non-compressible content-header record. -/
def server_error (now : String) (include_body : Bool) : Sent :=
  respond now (strBytes "500 Internal Server Error")
    (some { content_type := "text/plain", cache_age := 0, compress := false })
    HttpStatus.ServerError include_body

/-- `empty_response` (`lib.rs` lines 168–170): empty payload, no content
headers, body never requested. -/
def empty_response (now : String) (status : HttpStatus) : Sent :=
  respond now [] none status false

/-- `success` (`lib.rs`): 200, compressing iff the policy allows it and the
client accepts gzip. -/
def success (now : String) (bytebuffer : List Nat)
    (content_headers : ContentHeaders) (allow_compression include_body :
    Bool) : Sent :=
  let headers :=
    { content_headers with
        compress := content_headers.compress && allow_compression }
  respond now bytebuffer (some headers) HttpStatus.Ok include_body

/-- `not_found` (`lib.rs`): 404, same compression negotiation as `success`. -/
def not_found (now : String) (bytebuffer : List Nat)
    (content_headers : ContentHeaders) (allow_compression include_body :
    Bool) : Sent :=
  let headers :=
    { content_headers with
        compress := content_headers.compress && allow_compression }
  respond now bytebuffer (some headers) HttpStatus.NotFound include_body

/-- `handle_connection` (`lib.rs` lines 59–151).  `readData` is the
lossy-UTF8 decode of the read buffer, `none` when the initial read errors;
`root` is `config.directory`.  Logging is effect-free and omitted. -/
def handle_connection (fs : FS) (now root : String)
    (readData : Option String) : Sent :=
  match readData with
  | none => empty_response now HttpStatus.BadRequest
  | some buffer_str =>
    match Request.parse buffer_str with
    | none => empty_response now HttpStatus.BadRequest
    | some request =>
      let accepts_gzip := acceptsGzip request.headers
      if request.protocol ≠ "HTTP/1.1" then
        empty_response now HttpStatus.UnsupportedVersion
      else
        let send_body := if request.method ≠ "HEAD" then true else false
        if request.method ≠ "GET" ∧ request.method ≠ "HEAD" then
          empty_response now HttpStatus.NotAllowed
        else
          match HttpContent.new fs root request.path with
          | some content =>
            match content.get_bytes fs with
            | some bytes =>
              success now bytes content.content_headers accepts_gzip send_body
            | none => server_error now send_body
          | none =>
            match HttpContent.new fs root "404.html" with
            | some content =>
              match content.get_bytes fs with
              | some bytes =>
                not_found now bytes content.content_headers accepts_gzip
                  send_body
              | none => server_error now send_body
            | none => server_error now send_body

/-! ### `threadpool.rs`

One worker's loop (`Worker::new`, `threadpool.rs` lines 58–75) consumes
messages from the shared channel.  The channel is abstracted to the sequence
of messages this worker dequeues; a job is abstracted to whether running it
returns normally or panics.  The Rust loop body is
`recv` → on `NewJob(job)` run `job()` (with no `catch_unwind` around it, so
a panic unwinds out of the loop and ends the thread) → on `Terminate` break. -/

/-- What running one job does: return or panic. -/
inductive JobOutcome where
  | ok
  | panics
deriving DecidableEq, Repr

/-- `enum Message` (`threadpool.rs`). -/
inductive Message where
  | NewJob (j : JobOutcome)
  | Terminate
deriving DecidableEq, Repr

/-- How the worker's thread ends. -/
inductive WorkerEnd where
  | terminated
  | panicked
  | starved
deriving DecidableEq, Repr

/-- One worker's loop run over the messages it dequeues: returns the jobs it
started, how the thread ended, and the messages it left unconsumed (still
available to other workers).  A `Terminate` breaks the loop; a panicking job
unwinds out of the loop (`job()` is called with no unwind boundary); an
exhausted channel makes `recv().unwrap()` panic (`starved`). -/
def workerRun : List Message → List JobOutcome × WorkerEnd × List Message
  | [] => ([], .starved, [])
  | .NewJob j :: rest =>
    match j with
    | .ok =>
      let (ran, ended, left) := workerRun rest
      (JobOutcome.ok :: ran, ended, left)
    | .panics => ([JobOutcome.panics], .panicked, rest)
  | .Terminate :: rest => ([], .terminated, rest)

/-! ### Spec-side definitions (for refinement/correction claims) -/

/-- The parsing algorithm exactly as the specification words it: split on
the first two spaces, fail below three tokens; split the third token on
CRLF, fail if that yields a single element; otherwise the head is the
protocol and each remaining line with a colon becomes a trimmed header
entry. -/
def parseSpecC2 (req : String) : Option Request :=
  match splitn3Sp req with
  | [m, p, rest] =>
    match (splitOnCRLF rest.data).map String.mk with
    | [] => none
    | [_] => none
    | proto :: hlines =>
      some { method := m, path := p, protocol := proto,
             headers := hlines.foldl
               (fun acc line =>
                 match splitn2Colon line with
                 | [k, v] => insertH acc (trimStr k) (trimStr v)
                 | _ => acc) [] }
  | _ => none

/-- The resolution precedence exactly as the claim words it: (1) candidate
is a file; (2) candidate has no extension and the string `candidate ++
".html"` is a file; (3) candidate is a directory holding an
`index.html`. -/
def resolveClaimC3 (fs : FS) (serve_path content_path : String) :
    Option String :=
  let cand := combinedPath serve_path content_path
  if fs.isFile cand then some cand
  else if pathExtension cand = none ∧ fs.isFile (cand ++ ".html") then
    some (cand ++ ".html")
  else if fs.isDir cand ∧ fs.isFile (pathJoin cand "index.html") then
    some (pathJoin cand "index.html")
  else none

/-- The amended resolution precedence: as `resolveClaimC3`, except that the
second arm tests whether the candidate with its extension *set* to `html`
(`Path::with_extension`, which rewrites the final component and so differs
from string append when the candidate ends in a separator or dot component)
is a file, while still returning `candidate ++ ".html"` string-appended. -/
def resolveAmendedC3 (fs : FS) (serve_path content_path : String) :
    Option String :=
  let cand := combinedPath serve_path content_path
  if fs.isFile cand then some cand
  else if pathExtension cand = none ∧ fs.isFile (withExtensionHtml cand) then
    some (cand ++ ".html")
  else if fs.isDir cand ∧ fs.isFile (pathJoin cand "index.html") then
    some (pathJoin cand "index.html")
  else none

/-! ### Concrete filesystems for witnesses and counterexamples -/

/-- A served root `root` holding `a.html` (bytes `[104, 105]`) and
`404.html` (bytes `[110, 111]`), with ordinary canonicalization. -/
def fsHtml : FS where
  isFile p := p = "root/a.html" ∨ p = "root/404.html"
  isDir p := p = "root"
  canonicalize p :=
    if p = "root" then some ["root"]
    else if p = "root/a.html" then some ["root", "a.html"]
    else if p = "root/404.html" then some ["root", "404.html"]
    else none
  readFile p :=
    if p = "root/a.html" then some [104, 105]
    else if p = "root/404.html" then some [110, 111]
    else none

/-- A served root `root` holding a single file `data.bin` whose extension
has no row in the content-policy table. -/
def fsBin : FS where
  isFile p := p = "root/data.bin"
  isDir p := p = "root"
  canonicalize p :=
    if p = "root" then some ["root"]
    else if p = "root/data.bin" then some ["root", "data.bin"]
    else none
  readFile p := if p = "root/data.bin" then some [1, 2, 3] else none

/-- A served root `root` holding only `a.html`: no `404.html` fallback. -/
def fsNo404 : FS where
  isFile p := p = "root/a.html"
  isDir p := p = "root"
  canonicalize p :=
    if p = "root" then some ["root"]
    else if p = "root/a.html" then some ["root", "a.html"]
    else none
  readFile p := if p = "root/a.html" then some [104, 105] else none

/-- A filesystem on which every canonicalization fails (e.g. the root was
removed between resolution and the sandbox check) while `root/x` still
stats as a file. -/
def fsNoCanon : FS where
  isFile p := p = "root/x"
  isDir _ := false
  canonicalize _ := none
  readFile _ := none

/-- A served root `root` whose subdirectory `sub` contains a *directory*
named `.html`, next to a sibling file `root/sub.html`: the layout on which
the literal reading of the resolution precedence diverges from the code. -/
def fsDotHtmlDir : FS where
  isFile p := p = "root/sub.html"
  isDir p :=
    p = "root" ∨ p = "root/sub" ∨ p = "root/sub/" ∨ p = "root/sub/.html"
  canonicalize p :=
    if p = "root" then some ["root"]
    else if p = "root/sub/.html" then some ["root", "sub", ".html"]
    else none
  readFile _ := none

/-! ### Auxiliary lemmas -/

/-- `dropTrailJunk` only discards `/` and `.` characters: any other
character of the input survives. -/
theorem mem_dropTrailJunk {c : Char} (hc1 : c ≠ '/') (hc2 : c ≠ '.') :
    ∀ l : List Char, c ∈ l → c ∈ dropTrailJunk l := by
  intro l
  induction l using dropTrailJunk.induct with
  | case1 =>
    intro h
    exact absurd h (List.not_mem_nil c)
  | case2 r ih =>
    intro h
    rw [show dropTrailJunk ('/' :: r) = dropTrailJunk r by simp [dropTrailJunk]]
    rcases List.mem_cons.mp h with h' | h'
    · exact absurd h' hc1
    · exact ih h'
  | case3 r ih =>
    intro h
    rw [show dropTrailJunk ('.' :: '/' :: r) = dropTrailJunk r by
      simp [dropTrailJunk]]
    rcases List.mem_cons.mp h with h' | h'
    · exact absurd h' hc2
    · rcases List.mem_cons.mp h' with h'' | h''
      · exact absurd h'' hc1
      · exact ih h''
  | case4 =>
    intro h
    rcases List.mem_cons.mp h with h' | h'
    · exact absurd h' hc2
    · exact absurd h' (List.not_mem_nil c)
  | case5 l h1 h2 h3 h4 =>
    intro h
    rw [dropTrailJunk.eq_def]
    split
    · exact (h1 rfl).elim
    · rename_i r
      exact (h2 r rfl).elim
    · rename_i r
      exact (h3 r rfl).elim
    · exact (h4 rfl).elim
    · exact h

/-- Truncating a path at its file name preserves every character that is
neither `/` nor `.`. -/
theorem mem_truncatedAtFileName {c : Char} (hc1 : c ≠ '/') (hc2 : c ≠ '.')
    {s : String} (h : c ∈ s.data) : c ∈ (truncatedAtFileName s).data := by
  unfold truncatedAtFileName
  exact List.mem_reverse.mpr
    (mem_dropTrailJunk hc1 hc2 _ (List.mem_reverse.mpr h))

/-- On an extension-less path, `with_extension("html")` preserves every
character that is neither `/` nor `.`. -/
theorem mem_withExtensionHtml {c : Char} (hc1 : c ≠ '/') (hc2 : c ≠ '.')
    {s : String} (h : c ∈ s.data) (hext : pathExtension s = none) :
    c ∈ (withExtensionHtml s).data := by
  unfold withExtensionHtml
  cases hf : pathFileName s with
  | none => exact h
  | some f =>
    have he : extOfFileName f = none := by
      unfold pathExtension at hext
      rw [hf] at hext
      exact hext
    simp only [he]
    rw [String.data_append]
    exact List.mem_append_left _ (mem_truncatedAtFileName hc1 hc2 h)

/-- Stripping one leading separator preserves every character that is
neither `/` nor `\`. -/
theorem mem_stripLeadingSep {c : Char} (hc1 : c ≠ '/') (hc2 : c ≠ '\\')
    {s : String} (h : c ∈ s.data) : c ∈ (stripLeadingSep s).data := by
  unfold stripLeadingSep
  cases hd : s.data with
  | nil => rw [hd] at h; exact absurd h (List.not_mem_nil c)
  | cons a rest =>
    simp only [hd]
    rw [hd] at h
    by_cases ha : a = '/' ∨ a = '\\'
    · rw [if_pos ha]
      rcases List.mem_cons.mp h with h' | h'
      · rcases ha with rfl | rfl
        · exact absurd h' hc1
        · exact absurd h' hc2
      · exact h'
    · rw [if_neg ha, hd]
      exact h

/-- The candidate path built for a request whose path carries a query
suffix contains the `?` character. -/
theorem query_mem_combinedPath (root b q : String) :
    '?' ∈ (combinedPath root (b ++ "?" ++ q)).data := by
  unfold combinedPath
  rw [String.data_append]
  refine List.mem_append_right _ ?_
  refine mem_stripLeadingSep (by decide) (by decide) ?_
  rw [String.data_append, String.data_append]
  exact List.mem_append_left _ (List.mem_append_right _ (by decide))

/-- On a filesystem with no entry whose path contains `?`, resolution of a
candidate containing `?` fails: every path the resolver consults keeps
the `?`. -/
theorem resolve_none_of_query (fs : FS) (cand : String)
    (hmem : '?' ∈ cand.data)
    (hq : ∀ s : String, '?' ∈ s.data →
      fs.isFile s = false ∧ fs.isDir s = false) :
    resolve_file_path fs cand = none := by
  have h1 : ¬ (fs.isFile cand = true) := by
    rw [(hq cand hmem).1]
    exact Bool.false_ne_true
  have h2 : ¬ (pathExtension cand = none ∧
      fs.isFile (withExtensionHtml cand) = true) := by
    rintro ⟨hext, hfile⟩
    have hm : '?' ∈ (withExtensionHtml cand).data :=
      mem_withExtensionHtml (by decide) (by decide) hmem hext
    rw [(hq _ hm).1] at hfile
    exact Bool.false_ne_true hfile
  have h3 : ¬ (fs.isDir cand = true ∧
      fs.isFile (pathJoin cand "index.html") = true) := by
    rintro ⟨hdir, _⟩
    rw [(hq cand hmem).2] at hdir
    exact Bool.false_ne_true hdir
  unfold resolve_file_path
  rw [if_neg h1, if_neg h2, if_neg h3]

set_option maxHeartbeats 1600000 in
/-- Everything observable about a `respond` call that got content headers:
status, compression-dependent payload and headers, wire body, body flag. -/
theorem respond_some_facts (now : String) (b : List Nat) (h : ContentHeaders)
    (st : HttpStatus) (ib : Bool) :
    (respond now b (some h) st ib).resp.status = st
    ∧ (respond now b (some h) st ib).resp.payload =
        (if h.compress then gzipEncode b else b)
    ∧ getH (respond now b (some h) st ib).resp.headers "Content-Encoding" =
        (if h.compress then some "gzip" else none)
    ∧ getH (respond now b (some h) st ib).resp.headers "Vary" =
        (if h.compress then some "Accept-Encoding" else none)
    ∧ getH (respond now b (some h) st ib).resp.headers "Content-Length" =
        some (if h.compress then toString (gzipEncode b).length
              else toString b.length)
    ∧ getH (respond now b (some h) st ib).resp.headers "Content-Type" =
        some h.content_type
    ∧ getH (respond now b (some h) st ib).resp.headers "Cache-Control" =
        some ("max-age=" ++ toString h.cache_age)
    ∧ getH (respond now b (some h) st ib).resp.headers "Connection" =
        some "close"
    ∧ getH (respond now b (some h) st ib).resp.headers "Date" = some now
    ∧ getH (respond now b (some h) st ib).resp.headers "Permissions-Policy" =
        some "interest-cohort=()"
    ∧ (respond now b (some h) st ib).includeBody = ib
    ∧ (respond now b (some h) st ib).wire.body =
        (if h.compress then gzipEncode b else b) := by
  obtain ⟨ct, ca, cp⟩ := h
  cases cp <;>
    simp [respond, Response.new, Response.set_default_headers,
      Response.set_content_headers, Response.compress_gzip, Response.send,
      getH, insertH, gzipEncode]

/-- Everything observable about a `respond` call without content headers:
exactly the four default headers, untouched payload. -/
theorem respond_none_facts (now : String) (b : List Nat) (st : HttpStatus)
    (ib : Bool) :
    (respond now b none st ib).resp.status = st
    ∧ (respond now b none st ib).resp.payload = b
    ∧ (respond now b none st ib).resp.headers =
        [("Connection", "close"),
         ("Content-Length", toString b.length),
         ("Date", now),
         ("Permissions-Policy", "interest-cohort=()")]
    ∧ (respond now b none st ib).wire.body = b
    ∧ (respond now b none st ib).includeBody = ib :=
  ⟨rfl, rfl, rfl, rfl, rfl⟩

/-- The branch of `handle_connection` for an unparsable buffer. -/
theorem handle_parse_fail (fs : FS) (now root buf : String)
    (hparse : Request.parse buf = none) :
    handle_connection fs now root (some buf) =
      empty_response now HttpStatus.BadRequest := by
  unfold handle_connection
  simp only [hparse]

/-- The branch of `handle_connection` for a non-`HTTP/1.1` protocol. -/
theorem handle_bad_protocol (fs : FS) (now root buf : String) (req : Request)
    (hparse : Request.parse buf = some req)
    (hproto : ¬ req.protocol = "HTTP/1.1") :
    handle_connection fs now root (some buf) =
      empty_response now HttpStatus.UnsupportedVersion := by
  unfold handle_connection
  simp only [hparse]
  rw [if_pos hproto]

/-- The branch of `handle_connection` for a method other than GET/HEAD. -/
theorem handle_bad_method (fs : FS) (now root buf : String) (req : Request)
    (hparse : Request.parse buf = some req)
    (hproto : req.protocol = "HTTP/1.1")
    (h1 : ¬ req.method = "GET") (h2 : ¬ req.method = "HEAD") :
    handle_connection fs now root (some buf) =
      empty_response now HttpStatus.NotAllowed := by
  unfold handle_connection
  simp only [hparse]
  rw [if_neg (by simp [hproto]), if_pos ⟨h1, h2⟩]

/-- The branch of `handle_connection` for a resolved and readable file. -/
theorem handle_success_eq (fs : FS) (now root buf : String) (req : Request)
    (c : HttpContent) (bytes : List Nat)
    (hparse : Request.parse buf = some req)
    (hproto : req.protocol = "HTTP/1.1")
    (hmeth : req.method = "GET" ∨ req.method = "HEAD")
    (hres : HttpContent.new fs root req.path = some c)
    (hread : fs.readFile c.file_path = some bytes) :
    handle_connection fs now root (some buf) =
      success now bytes c.content_headers (acceptsGzip req.headers)
        (if req.method ≠ "HEAD" then true else false) := by
  unfold handle_connection
  simp only [hparse]
  rw [if_neg (by simp [hproto])]
  rw [if_neg (fun hcon => by
    rcases hmeth with hm | hm
    · exact hcon.1 hm
    · exact hcon.2 hm)]
  simp only [hres, HttpContent.get_bytes, hread]

/-- The branch of `handle_connection` for a resolved file whose read
fails. -/
theorem handle_read_err (fs : FS) (now root buf : String) (req : Request)
    (c : HttpContent)
    (hparse : Request.parse buf = some req)
    (hproto : req.protocol = "HTTP/1.1")
    (hmeth : req.method = "GET" ∨ req.method = "HEAD")
    (hres : HttpContent.new fs root req.path = some c)
    (hread : fs.readFile c.file_path = none) :
    handle_connection fs now root (some buf) =
      server_error now (if req.method ≠ "HEAD" then true else false) := by
  unfold handle_connection
  simp only [hparse]
  rw [if_neg (by simp [hproto])]
  rw [if_neg (fun hcon => by
    rcases hmeth with hm | hm
    · exact hcon.1 hm
    · exact hcon.2 hm)]
  simp only [hres, HttpContent.get_bytes, hread]

/-- The branch of `handle_connection` for a failed resolution with a
resolvable, readable `404.html`. -/
theorem handle_fallback_found (fs : FS) (now root buf : String)
    (req : Request) (c : HttpContent) (bytes : List Nat)
    (hparse : Request.parse buf = some req)
    (hproto : req.protocol = "HTTP/1.1")
    (hmeth : req.method = "GET" ∨ req.method = "HEAD")
    (hfail : HttpContent.new fs root req.path = none)
    (h404 : HttpContent.new fs root "404.html" = some c)
    (hread : fs.readFile c.file_path = some bytes) :
    handle_connection fs now root (some buf) =
      not_found now bytes c.content_headers (acceptsGzip req.headers)
        (if req.method ≠ "HEAD" then true else false) := by
  unfold handle_connection
  simp only [hparse]
  rw [if_neg (by simp [hproto])]
  rw [if_neg (fun hcon => by
    rcases hmeth with hm | hm
    · exact hcon.1 hm
    · exact hcon.2 hm)]
  simp only [hfail, h404, HttpContent.get_bytes, hread]

/-- The branch of `handle_connection` for a failed resolution whose
`404.html` fallback resolves but cannot be read. -/
theorem handle_fallback_read_err (fs : FS) (now root buf : String)
    (req : Request) (c : HttpContent)
    (hparse : Request.parse buf = some req)
    (hproto : req.protocol = "HTTP/1.1")
    (hmeth : req.method = "GET" ∨ req.method = "HEAD")
    (hfail : HttpContent.new fs root req.path = none)
    (h404 : HttpContent.new fs root "404.html" = some c)
    (hread : fs.readFile c.file_path = none) :
    handle_connection fs now root (some buf) =
      server_error now (if req.method ≠ "HEAD" then true else false) := by
  unfold handle_connection
  simp only [hparse]
  rw [if_neg (by simp [hproto])]
  rw [if_neg (fun hcon => by
    rcases hmeth with hm | hm
    · exact hcon.1 hm
    · exact hcon.2 hm)]
  simp only [hfail, h404, HttpContent.get_bytes, hread]

/-- The branch of `handle_connection` for a failed resolution with no
resolvable `404.html`. -/
theorem handle_fallback_none (fs : FS) (now root buf : String)
    (req : Request)
    (hparse : Request.parse buf = some req)
    (hproto : req.protocol = "HTTP/1.1")
    (hmeth : req.method = "GET" ∨ req.method = "HEAD")
    (hfail : HttpContent.new fs root req.path = none)
    (h404 : HttpContent.new fs root "404.html" = none) :
    handle_connection fs now root (some buf) =
      server_error now (if req.method ≠ "HEAD" then true else false) := by
  unfold handle_connection
  simp only [hparse]
  rw [if_neg (by simp [hproto])]
  rw [if_neg (fun hcon => by
    rcases hmeth with hm | hm
    · exact hcon.1 hm
    · exact hcon.2 hm)]
  simp only [hfail, h404]

/-- `success` is `respond` with the negotiated compression flag. -/
theorem success_as_respond (now : String) (b : List Nat) (ch : ContentHeaders)
    (g ib : Bool) :
    success now b ch g ib =
      respond now b (some ⟨ch.content_type, ch.cache_age, ch.compress && g⟩)
        HttpStatus.Ok ib := rfl

/-- `not_found` is `respond` with the negotiated compression flag. -/
theorem not_found_as_respond (now : String) (b : List Nat)
    (ch : ContentHeaders) (g ib : Bool) :
    not_found now b ch g ib =
      respond now b (some ⟨ch.content_type, ch.cache_age, ch.compress && g⟩)
        HttpStatus.NotFound ib := rfl

/-- Files whose extension has no row in the table get the default
content type, a 60 second cache age and no compression. -/
theorem content_headers_unknown (p : String) (h : extString p ∉ knownExts) :
    HttpContent.content_headers { file_path := p } =
      { content_type := "application/octet-stream", cache_age := 60,
        compress := false } := by
  simp only [knownExts, List.mem_cons, not_or, List.not_mem_nil] at h
  obtain ⟨h1, h2, h3, h4, h5, h6, h7, h8, h9, h10, h11, h12, h13, h14, h15⟩ := h
  simp only [HttpContent.content_headers]
  rw [if_neg h1, if_neg h2, if_neg h3, if_neg h4, if_neg h5, if_neg h6,
      if_neg h7, if_neg (not_or.mpr ⟨h8, h9⟩), if_neg h10, if_neg h11,
      if_neg h12, if_neg h13, if_neg h14, if_neg h15.1]

/-! ### Claims -/

/-- C1: sandboxing invariant.  Whenever `HttpContent::new` returns a
resolved file (the only values `get_bytes` is ever called on), both the
served root and the resolved path canonicalize successfully and the
canonical root is a component-wise path prefix of the canonical resolved
path; and if canonicalization of either side fails, `HttpContent::new`
returns `none` even for a candidate the resolver accepted. -/
theorem sandbox_invariant (fs : FS) (root req : String) :
    (∀ c : HttpContent, HttpContent.new fs root req = some c →
      ∃ canonRoot canonFile,
        fs.canonicalize root = some canonRoot ∧
        fs.canonicalize c.file_path = some canonFile ∧
        canonRoot.isPrefixOf canonFile = true)
    ∧ (∀ p : String,
        resolve_file_path fs (combinedPath root req) = some p →
        (fs.canonicalize root = none ∨ fs.canonicalize p = none) →
        HttpContent.new fs root req = none) := by
  constructor
  · intro c hc
    rw [HttpContent.new.eq_def] at hc
    split at hc
    · exact absurd hc (by simp)
    · split at hc
      · rename_i p hres hin
        injection hc with hc
        subst hc
        unfold in_serve_folder at hin
        split at hin
        · exact absurd hin (by simp)
        · rename_i canonRoot hcr
          split at hin
          · exact absurd hin (by simp)
          · rename_i canonFile hcp
            exact ⟨canonRoot, canonFile, hcr, hcp, hin⟩
      · exact absurd hc (by simp)
  · intro p hres hfail
    have hin : in_serve_folder fs root p = false := by
      unfold in_serve_folder
      rcases hfail with h | h
      · rw [h]
      · cases hcr : fs.canonicalize root with
        | none => rfl
        | some canonRoot => rw [h]
    rw [HttpContent.new.eq_def, hres]
    simp [hin]

/-- C1 witness: on the concrete root holding `a.html` the invariant is
realized with canonical components `["root"]` and `["root", "a.html"]`;
on the filesystem whose canonicalization fails, resolution returns
`none` although the resolver had accepted `root/x`. -/
theorem sandbox_invariant_witness :
    (∃ canonRoot canonFile,
      fsHtml.canonicalize "root" = some canonRoot ∧
      fsHtml.canonicalize "root/a.html" = some canonFile ∧
      canonRoot.isPrefixOf canonFile = true)
    ∧ HttpContent.new fsNoCanon "root" "/x" = none := by
  constructor
  · exact (sandbox_invariant fsHtml "root" "/a.html").1
      { file_path := "root/a.html" } (by rfl)
  · exact (sandbox_invariant fsNoCanon "root" "/x").2 "root/x" (by rfl)
      (Or.inl rfl)

/-- C2: `Request::parse` is total (it is a Lean function on all of
`String`) and computes exactly the claimed algorithm: split on the first
two spaces, fail below three tokens, split the third token on CRLF, fail
when that split is a single element, else take the head as protocol and
each remaining colon-bearing line, trimmed on both sides of the first
colon, as a header entry, silently skipping colon-less lines. -/
theorem parse_computes_spec (s : String) : Request.parse s = parseSpecC2 s := by
  rcases h3 : splitn3Sp s with _ | ⟨a, _ | ⟨b, _ | ⟨c, _ | ⟨d, t4⟩⟩⟩⟩
  · simp only [Request.parse, parseSpecC2, h3]
  · simp only [Request.parse, parseSpecC2, h3]
  · simp only [Request.parse, parseSpecC2, h3]
  · rcases hsp : (splitOnCRLF c.data).map String.mk with _ | ⟨proto, _ | ⟨h1, ht⟩⟩
    · simp only [Request.parse, parseSpecC2, h3, hsp]
    · simp [Request.parse, parseSpecC2, h3, hsp]
    · simp [Request.parse, parseSpecC2, h3, hsp]
  · simp only [Request.parse, parseSpecC2, h3]

/-- C3 counterexample: served root `root`, requested path `/sub/`, on a
filesystem where `root/sub.html` is a file and `root/sub/.html` is a
directory.  The code's second arm tests `with_extension("html")`, i.e.
`root/sub.html`, finds a file, and returns the string-appended
`root/sub/.html` (which the claim's literal algorithm, testing
`candidate ++ ".html"` = `root/sub/.html`, rejects, returning `none`);
the divergence survives the sandbox check into `HttpContent::new`. -/
theorem resolve_precedence_cex :
    resolve_file_path fsDotHtmlDir (combinedPath "root" "/sub/") =
      some "root/sub/.html"
    ∧ resolveClaimC3 fsDotHtmlDir "root" "/sub/" = none
    ∧ HttpContent.new fsDotHtmlDir "root" "/sub/" =
        some { file_path := "root/sub/.html" } := by
  exact ⟨rfl, rfl, rfl⟩

/-- C3 amended: resolution strips one leading `/` or `\`, joins to the
root with a separator, and applies the claimed precedence with one
correction — the second arm's existence test is on the candidate with its
extension *set* to `html` (`Path::with_extension`, which rewrites the
final component and equals string append only when the candidate does not
end in a separator or `.` component), while the returned path is still
the candidate with `".html"` string-appended. -/
theorem resolve_precedence_amended (fs : FS) (root req : String) :
    resolve_file_path fs (combinedPath root req) =
      resolveAmendedC3 fs root req := rfl

/-- C4: when the requested path fails to resolve, the handler falls back
to resolving the fixed path `404.html` under the same served root; if the
fallback resolves and reads, the status is 404 with that file's bytes and
gzip negotiated exactly as for a 200; if the fallback fails to resolve or
to read — or the primary resource's read errors — the status is 500 with
the fixed plain-text body and no compression. -/
theorem fallback_404_500 (fs : FS) (now root buf : String) (req : Request)
    (hparse : Request.parse buf = some req)
    (hproto : req.protocol = "HTTP/1.1")
    (hmeth : req.method = "GET" ∨ req.method = "HEAD") :
    (∀ c : HttpContent, HttpContent.new fs root req.path = some c →
      fs.readFile c.file_path = none →
      (handle_connection fs now root (some buf)).resp.status =
          HttpStatus.ServerError
      ∧ (handle_connection fs now root (some buf)).resp.payload =
          strBytes "500 Internal Server Error"
      ∧ getH (handle_connection fs now root (some buf)).resp.headers
          "Content-Encoding" = none)
    ∧ (HttpContent.new fs root req.path = none →
        (∀ (c : HttpContent) (bytes : List Nat),
          HttpContent.new fs root "404.html" = some c →
          fs.readFile c.file_path = some bytes →
          (handle_connection fs now root (some buf)).resp.status =
              HttpStatus.NotFound
          ∧ (handle_connection fs now root (some buf)).resp.payload =
              (if c.content_headers.compress && acceptsGzip req.headers
               then gzipEncode bytes else bytes)
          ∧ getH (handle_connection fs now root (some buf)).resp.headers
              "Content-Encoding" =
              (if c.content_headers.compress && acceptsGzip req.headers
               then some "gzip" else none))
        ∧ (∀ c : HttpContent, HttpContent.new fs root "404.html" = some c →
            fs.readFile c.file_path = none →
            (handle_connection fs now root (some buf)).resp.status =
                HttpStatus.ServerError
            ∧ (handle_connection fs now root (some buf)).resp.payload =
                strBytes "500 Internal Server Error"
            ∧ getH (handle_connection fs now root (some buf)).resp.headers
                "Content-Encoding" = none)
        ∧ (HttpContent.new fs root "404.html" = none →
            (handle_connection fs now root (some buf)).resp.status =
                HttpStatus.ServerError
            ∧ (handle_connection fs now root (some buf)).resp.payload =
                strBytes "500 Internal Server Error"
            ∧ getH (handle_connection fs now root (some buf)).resp.headers
                "Content-Encoding" = none)) := by
  constructor
  · intro c hc hbytes
    rw [handle_read_err fs now root buf req c hparse hproto hmeth hc hbytes]
    exact ⟨rfl, rfl, rfl⟩
  · intro hfail
    refine ⟨?_, ?_, ?_⟩
    · intro c bytes h404 hread
      rw [handle_fallback_found fs now root buf req c bytes hparse hproto
        hmeth hfail h404 hread, not_found_as_respond]
      obtain ⟨f1, f2, f3, -, -, -, -, -, -, -, -, -⟩ :=
        respond_some_facts now bytes
          ⟨c.content_headers.content_type, c.content_headers.cache_age,
            c.content_headers.compress && acceptsGzip req.headers⟩
          HttpStatus.NotFound (if req.method ≠ "HEAD" then true else false)
      exact ⟨f1, f2, f3⟩
    · intro c h404 hread
      rw [handle_fallback_read_err fs now root buf req c hparse hproto hmeth
        hfail h404 hread]
      exact ⟨rfl, rfl, rfl⟩
    · intro h404
      rw [handle_fallback_none fs now root buf req hparse hproto hmeth hfail
        h404]
      exact ⟨rfl, rfl, rfl⟩

/-- C4 witness: on the root holding `404.html` a missing path yields 404
with the fallback file's bytes; on the root without `404.html` it yields
500 with the fixed plain-text body. -/
theorem fallback_404_500_witness :
    ((handle_connection fsHtml "NOW" "root"
        (some "GET /missing HTTP/1.1\r\n\r\n")).resp.status =
      HttpStatus.NotFound)
    ∧ ((handle_connection fsNo404 "NOW" "root"
        (some "GET /missing HTTP/1.1\r\n\r\n")).resp.status =
          HttpStatus.ServerError
      ∧ (handle_connection fsNo404 "NOW" "root"
          (some "GET /missing HTTP/1.1\r\n\r\n")).resp.payload =
          strBytes "500 Internal Server Error") := by
  constructor
  · exact (((fallback_404_500 fsHtml "NOW" "root" "GET /missing HTTP/1.1\r\n\r\n"
      { method := "GET", path := "/missing", protocol := "HTTP/1.1",
        headers := [] }
      (by rfl) rfl (Or.inl rfl)).2 (by rfl)).1
      { file_path := "root/404.html" } [110, 111] (by rfl) (by rfl)).1
  · have h := ((fallback_404_500 fsNo404 "NOW" "root"
      "GET /missing HTTP/1.1\r\n\r\n"
      { method := "GET", path := "/missing", protocol := "HTTP/1.1",
        headers := [] }
      (by rfl) rfl (Or.inl rfl)).2 (by rfl)).2.2 (by rfl)
    exact ⟨h.1, h.2.1⟩

/-- C5: an initial-read failure or a parse failure yields 400, a protocol
other than `HTTP/1.1` yields 505, a method other than GET/HEAD yields 405;
each such response has an empty payload and exactly the four default
headers — never `Content-Type` or `Cache-Control`. -/
theorem error_statuses_and_headers (fs : FS) (now root : String) :
    ((handle_connection fs now root none).resp.status = HttpStatus.BadRequest
      ∧ (handle_connection fs now root none).resp.payload = []
      ∧ (handle_connection fs now root none).resp.headers =
          [("Connection", "close"), ("Content-Length", "0"), ("Date", now),
           ("Permissions-Policy", "interest-cohort=()")]
      ∧ getH (handle_connection fs now root none).resp.headers
          "Content-Type" = none
      ∧ getH (handle_connection fs now root none).resp.headers
          "Cache-Control" = none)
    ∧ (∀ buf : String, Request.parse buf = none →
        (handle_connection fs now root (some buf)).resp.status =
            HttpStatus.BadRequest
        ∧ (handle_connection fs now root (some buf)).resp.payload = []
        ∧ (handle_connection fs now root (some buf)).resp.headers =
            [("Connection", "close"), ("Content-Length", "0"), ("Date", now),
             ("Permissions-Policy", "interest-cohort=()")]
        ∧ getH (handle_connection fs now root (some buf)).resp.headers
            "Content-Type" = none
        ∧ getH (handle_connection fs now root (some buf)).resp.headers
            "Cache-Control" = none)
    ∧ (∀ (buf : String) (req : Request), Request.parse buf = some req →
        ¬ req.protocol = "HTTP/1.1" →
        (handle_connection fs now root (some buf)).resp.status =
            HttpStatus.UnsupportedVersion
        ∧ (handle_connection fs now root (some buf)).resp.payload = []
        ∧ (handle_connection fs now root (some buf)).resp.headers =
            [("Connection", "close"), ("Content-Length", "0"), ("Date", now),
             ("Permissions-Policy", "interest-cohort=()")]
        ∧ getH (handle_connection fs now root (some buf)).resp.headers
            "Content-Type" = none
        ∧ getH (handle_connection fs now root (some buf)).resp.headers
            "Cache-Control" = none)
    ∧ (∀ (buf : String) (req : Request), Request.parse buf = some req →
        req.protocol = "HTTP/1.1" →
        ¬ req.method = "GET" → ¬ req.method = "HEAD" →
        (handle_connection fs now root (some buf)).resp.status =
            HttpStatus.NotAllowed
        ∧ (handle_connection fs now root (some buf)).resp.payload = []
        ∧ (handle_connection fs now root (some buf)).resp.headers =
            [("Connection", "close"), ("Content-Length", "0"), ("Date", now),
             ("Permissions-Policy", "interest-cohort=()")]
        ∧ getH (handle_connection fs now root (some buf)).resp.headers
            "Content-Type" = none
        ∧ getH (handle_connection fs now root (some buf)).resp.headers
            "Cache-Control" = none) := by
  refine ⟨⟨rfl, rfl, rfl, rfl, rfl⟩, ?_, ?_, ?_⟩
  · intro buf hpf
    rw [handle_parse_fail fs now root buf hpf]
    exact ⟨rfl, rfl, rfl, rfl, rfl⟩
  · intro buf req hp hproto
    rw [handle_bad_protocol fs now root buf req hp hproto]
    exact ⟨rfl, rfl, rfl, rfl, rfl⟩
  · intro buf req hp hproto h1 h2
    rw [handle_bad_method fs now root buf req hp hproto h1 h2]
    exact ⟨rfl, rfl, rfl, rfl, rfl⟩

/-- C5 witness: `HTTP/1.0` yields 505 and `POST` yields 405 on concrete
requests, with the four default headers only. -/
theorem error_statuses_witness :
    ((handle_connection fsHtml "NOW" "root"
        (some "GET /a HTTP/1.0\r\n\r\n")).resp.status =
      HttpStatus.UnsupportedVersion)
    ∧ ((handle_connection fsHtml "NOW" "root"
        (some "POST /a HTTP/1.1\r\n\r\n")).resp.status =
      HttpStatus.NotAllowed)
    ∧ (handle_connection fsHtml "NOW" "root"
        (some "POST /a HTTP/1.1\r\n\r\n")).resp.headers =
        [("Connection", "close"), ("Content-Length", "0"), ("Date", "NOW"),
         ("Permissions-Policy", "interest-cohort=()")] := by
  have h505 := (error_statuses_and_headers fsHtml "NOW" "root").2.2.1
    "GET /a HTTP/1.0\r\n\r\n"
    { method := "GET", path := "/a", protocol := "HTTP/1.0", headers := [] }
    (by rfl) (by decide)
  have h405 := (error_statuses_and_headers fsHtml "NOW" "root").2.2.2
    "POST /a HTTP/1.1\r\n\r\n"
    { method := "POST", path := "/a", protocol := "HTTP/1.1", headers := [] }
    (by rfl) rfl (by decide) (by decide)
  exact ⟨h505.1, h405.1, h405.2.2.1⟩

/-- C6: for a resolved, readable resource the response is
gzip-compressed — `Content-Encoding: gzip`, `Vary: Accept-Encoding`,
`Content-Length` recomputed to the compressed length — exactly when the
policy marks the extension compressible and the exact-case
`Accept-Encoding` request header holds a comma-token that starts with
`gzip` after trimming leading whitespace; a file with unknown or missing
extension gets `application/octet-stream`, `max-age=60`, and is never
compressed. -/
theorem gzip_negotiation (fs : FS) (now root buf : String) (req : Request)
    (c : HttpContent) (bytes : List Nat)
    (hparse : Request.parse buf = some req)
    (hproto : req.protocol = "HTTP/1.1")
    (hmeth : req.method = "GET" ∨ req.method = "HEAD")
    (hres : HttpContent.new fs root req.path = some c)
    (hread : fs.readFile c.file_path = some bytes) :
    (handle_connection fs now root (some buf)).resp.status = HttpStatus.Ok
    ∧ (getH (handle_connection fs now root (some buf)).resp.headers
          "Content-Encoding" = some "gzip"
        ↔ (c.content_headers.compress && acceptsGzip req.headers) = true)
    ∧ ((c.content_headers.compress && acceptsGzip req.headers) = true →
        (handle_connection fs now root (some buf)).resp.payload =
            gzipEncode bytes
        ∧ getH (handle_connection fs now root (some buf)).resp.headers
            "Vary" = some "Accept-Encoding"
        ∧ getH (handle_connection fs now root (some buf)).resp.headers
            "Content-Length" = some (toString (gzipEncode bytes).length))
    ∧ ((c.content_headers.compress && acceptsGzip req.headers) = false →
        (handle_connection fs now root (some buf)).resp.payload = bytes
        ∧ getH (handle_connection fs now root (some buf)).resp.headers
            "Content-Encoding" = none
        ∧ getH (handle_connection fs now root (some buf)).resp.headers
            "Vary" = none
        ∧ getH (handle_connection fs now root (some buf)).resp.headers
            "Content-Length" = some (toString bytes.length))
    ∧ (extString c.file_path ∉ knownExts →
        getH (handle_connection fs now root (some buf)).resp.headers
            "Content-Type" = some "application/octet-stream"
        ∧ getH (handle_connection fs now root (some buf)).resp.headers
            "Cache-Control" = some "max-age=60"
        ∧ (handle_connection fs now root (some buf)).resp.payload = bytes
        ∧ getH (handle_connection fs now root (some buf)).resp.headers
            "Content-Encoding" = none) := by
  rw [handle_success_eq fs now root buf req c bytes hparse hproto hmeth hres
    hread, success_as_respond]
  obtain ⟨f1, f2, f3, f4, f5, f6, f7, -, -, -, -, -⟩ :=
    respond_some_facts now bytes
      ⟨c.content_headers.content_type, c.content_headers.cache_age,
        c.content_headers.compress && acceptsGzip req.headers⟩
      HttpStatus.Ok (if req.method ≠ "HEAD" then true else false)
  refine ⟨f1, ?_, ?_, ?_, ?_⟩
  · rw [f3]
    cases hc : (c.content_headers.compress && acceptsGzip req.headers) <;>
      simp [hc]
  · intro hc
    rw [f2, f3] at *
    refine ⟨?_, ?_, ?_⟩
    · rw [f2]; simp [hc]
    · rw [f4]; simp [hc]
    · rw [f5]; simp [hc]
  · intro hc
    refine ⟨?_, ?_, ?_, ?_⟩
    · rw [f2]; simp [hc]
    · rw [f3]; simp [hc]
    · rw [f4]; simp [hc]
    · rw [f5]; simp [hc]
  · intro hunk
    have hch : c.content_headers =
        { content_type := "application/octet-stream", cache_age := 60,
          compress := false } :=
      content_headers_unknown c.file_path hunk
    have hcomp : (c.content_headers.compress && acceptsGzip req.headers) =
        false := by
      rw [hch]
      simp
    refine ⟨?_, ?_, ?_, ?_⟩
    · rw [f6, hch]
    · rw [f7, hch]
      show some ("max-age=" ++ toString (60 : Nat)) = some "max-age=60"
      rfl
    · rw [f2]; simp [hcomp]
    · rw [f3]; simp [hcomp]

/-- C6 witness: `a.html` with `Accept-Encoding: gzip` gets
`Content-Encoding: gzip`; the same file without that header is served
uncompressed; `data.bin` gets `application/octet-stream` and stays
uncompressed even with `Accept-Encoding: gzip`. -/
theorem gzip_negotiation_witness :
    getH (handle_connection fsHtml "NOW" "root"
        (some "GET /a.html HTTP/1.1\r\nAccept-Encoding: gzip\r\n\r\n")).resp.headers
      "Content-Encoding" = some "gzip"
    ∧ (handle_connection fsHtml "NOW" "root"
        (some "GET /a.html HTTP/1.1\r\n\r\n")).resp.payload = [104, 105]
    ∧ getH (handle_connection fsBin "NOW" "root"
        (some "GET /data.bin HTTP/1.1\r\nAccept-Encoding: gzip\r\n\r\n")).resp.headers
      "Content-Type" = some "application/octet-stream"
    ∧ (handle_connection fsBin "NOW" "root"
        (some "GET /data.bin HTTP/1.1\r\nAccept-Encoding: gzip\r\n\r\n")).resp.payload
      = [1, 2, 3] := by
  refine ⟨?_, ?_, ?_, ?_⟩
  · exact (gzip_negotiation fsHtml "NOW" "root"
      "GET /a.html HTTP/1.1\r\nAccept-Encoding: gzip\r\n\r\n"
      { method := "GET", path := "/a.html", protocol := "HTTP/1.1",
        headers := [("Accept-Encoding", "gzip")] }
      { file_path := "root/a.html" } [104, 105]
      (by rfl) rfl (Or.inl rfl) (by rfl) (by rfl)).2.1.mpr (by rfl)
  · exact ((gzip_negotiation fsHtml "NOW" "root" "GET /a.html HTTP/1.1\r\n\r\n"
      { method := "GET", path := "/a.html", protocol := "HTTP/1.1",
        headers := [] }
      { file_path := "root/a.html" } [104, 105]
      (by rfl) rfl (Or.inl rfl) (by rfl) (by rfl)).2.2.2.1 (by rfl)).1
  · exact ((gzip_negotiation fsBin "NOW" "root"
      "GET /data.bin HTTP/1.1\r\nAccept-Encoding: gzip\r\n\r\n"
      { method := "GET", path := "/data.bin", protocol := "HTTP/1.1",
        headers := [("Accept-Encoding", "gzip")] }
      { file_path := "root/data.bin" } [1, 2, 3]
      (by rfl) rfl (Or.inl rfl) (by rfl) (by rfl)).2.2.2.2 (by decide)).1
  · exact ((gzip_negotiation fsBin "NOW" "root"
      "GET /data.bin HTTP/1.1\r\nAccept-Encoding: gzip\r\n\r\n"
      { method := "GET", path := "/data.bin", protocol := "HTTP/1.1",
        headers := [("Accept-Encoding", "gzip")] }
      { file_path := "root/data.bin" } [1, 2, 3]
      (by rfl) rfl (Or.inl rfl) (by rfl) (by rfl)).2.2.2.2 (by decide)).2.2.1

/-- C7 (code bug): for a concrete HEAD request on an existing resource,
the caller passes `include_body = false`, yet the wire output of
`Response::send` as written in `response.rs` (which takes no body switch
and unconditionally executes `write_all(&self.payload)`) carries the full
payload bytes; the `Content-Length` header does equal the one the
equivalent GET reports. -/
theorem head_body_on_wire :
    (handle_connection fsHtml "NOW" "root"
        (some "HEAD /a.html HTTP/1.1\r\n\r\n")).includeBody = false
    ∧ (handle_connection fsHtml "NOW" "root"
        (some "HEAD /a.html HTTP/1.1\r\n\r\n")).wire.body = [104, 105]
    ∧ getH (handle_connection fsHtml "NOW" "root"
        (some "HEAD /a.html HTTP/1.1\r\n\r\n")).resp.headers
        "Content-Length" = some "2"
    ∧ (handle_connection fsHtml "NOW" "root"
        (some "GET /a.html HTTP/1.1\r\n\r\n")).wire.body = [104, 105]
    ∧ getH (handle_connection fsHtml "NOW" "root"
        (some "GET /a.html HTTP/1.1\r\n\r\n")).resp.headers
        "Content-Length" = some "2" :=
  ⟨rfl, rfl, rfl, rfl, rfl⟩

/-- C8: gzip round-trip — decoding the encoder's output restores the
payload exactly; consequently a served `html` file requested with
`Accept-Encoding: gzip` carries `Content-Encoding: gzip` and a payload
that decompresses to the file's bytes. -/
theorem gzip_roundtrip (fs : FS) (now root buf : String) (req : Request)
    (c : HttpContent) (bytes : List Nat) :
    (∀ b : List Nat, gzipDecode (gzipEncode b) = some b)
    ∧ (Request.parse buf = some req → req.protocol = "HTTP/1.1" →
       (req.method = "GET" ∨ req.method = "HEAD") →
       HttpContent.new fs root req.path = some c →
       fs.readFile c.file_path = some bytes →
       pathExtension c.file_path = some "html" →
       acceptsGzip req.headers = true →
       getH (handle_connection fs now root (some buf)).resp.headers
           "Content-Encoding" = some "gzip"
       ∧ gzipDecode
           (handle_connection fs now root (some buf)).resp.payload =
           some bytes) := by
  refine ⟨fun b => rfl, ?_⟩
  intro hparse hproto hmeth hres hread hext hgz
  have hes : extString c.file_path = "html" := by
    unfold extString
    rw [hext]
  have hcompress : c.content_headers.compress = true := by
    simp [HttpContent.content_headers, hes]
  have hcomp : (c.content_headers.compress && acceptsGzip req.headers) =
      true := by
    rw [hcompress, hgz]
    rfl
  rw [handle_success_eq fs now root buf req c bytes hparse hproto hmeth hres
    hread, success_as_respond]
  obtain ⟨-, f2, f3, -, -, -, -, -, -, -, -, -⟩ :=
    respond_some_facts now bytes
      ⟨c.content_headers.content_type, c.content_headers.cache_age,
        c.content_headers.compress && acceptsGzip req.headers⟩
      HttpStatus.Ok (if req.method ≠ "HEAD" then true else false)
  constructor
  · rw [f3]
    simp [hcomp]
  · rw [f2]
    simp [hcomp, gzipEncode, gzipDecode]

/-- C8 witness: the html file `[104, 105]` served gzip-compressed
decompresses back to `[104, 105]`. -/
theorem gzip_roundtrip_witness :
    getH (handle_connection fsHtml "NOW" "root"
        (some "GET /a.html HTTP/1.1\r\nAccept-Encoding: gzip\r\n\r\n")).resp.headers
      "Content-Encoding" = some "gzip"
    ∧ gzipDecode (handle_connection fsHtml "NOW" "root"
        (some "GET /a.html HTTP/1.1\r\nAccept-Encoding: gzip\r\n\r\n")).resp.payload
      = some [104, 105] :=
  (gzip_roundtrip fsHtml "NOW" "root"
    "GET /a.html HTTP/1.1\r\nAccept-Encoding: gzip\r\n\r\n"
    { method := "GET", path := "/a.html", protocol := "HTTP/1.1",
      headers := [("Accept-Encoding", "gzip")] }
    { file_path := "root/a.html" } [104, 105]).2
    (by rfl) rfl (Or.inl rfl) (by rfl) (by rfl) (by rfl) (by rfl)

/-- C9 counterexample: the worker that dequeues a panicking job followed
by an ok job does not survive and does not run the subsequent job — its
loop ends by panic, not by a terminate signal. -/
theorem worker_panic_cex :
    ¬ (JobOutcome.ok ∈ (workerRun [Message.NewJob JobOutcome.panics,
          Message.NewJob JobOutcome.ok, Message.Terminate]).1
       ∧ (workerRun [Message.NewJob JobOutcome.panics,
          Message.NewJob JobOutcome.ok, Message.Terminate]).2.1 ≠
          WorkerEnd.panicked) := by
  decide

/-- C9 amended: a panicking job unwinds out of the worker loop (there is
no unwind boundary around `job()` in `Worker::new`), terminating that
worker immediately; the messages it did not consume remain for other
workers, a job that returns normally keeps the worker alive, and a
terminate signal ends the loop cleanly. -/
theorem worker_panic_amended (rest : List Message) :
    workerRun (Message.NewJob JobOutcome.panics :: rest) =
      ([JobOutcome.panics], WorkerEnd.panicked, rest)
    ∧ workerRun (Message.NewJob JobOutcome.ok :: rest) =
        (JobOutcome.ok :: (workerRun rest).1, (workerRun rest).2.1,
         (workerRun rest).2.2)
    ∧ workerRun (Message.Terminate :: rest) =
        ([], WorkerEnd.terminated, rest) := by
  refine ⟨rfl, ?_, rfl⟩
  rcases h : workerRun rest with ⟨ran, ended, left⟩
  simp [workerRun, h]

/-- C10: the request path reaches content resolution verbatim, with no
query-string handling: on any filesystem having no entry whose name
contains `?`, a requested path with a query suffix always fails to
resolve — every path the resolver probes retains the query text — and
such a request enters the 404/500 fallback flow even if the file named
by the path before the `?` exists. -/
theorem query_string_resolution (fs : FS) (now root b q buf : String)
    (req : Request)
    (hq : ∀ s : String, '?' ∈ s.data →
      fs.isFile s = false ∧ fs.isDir s = false) :
    HttpContent.new fs root (b ++ "?" ++ q) = none
    ∧ (Request.parse buf = some req → req.protocol = "HTTP/1.1" →
       (req.method = "GET" ∨ req.method = "HEAD") →
       req.path = b ++ "?" ++ q →
       (handle_connection fs now root (some buf)).resp.status =
           HttpStatus.NotFound
       ∨ (handle_connection fs now root (some buf)).resp.status =
           HttpStatus.ServerError) := by
  have hnone : HttpContent.new fs root (b ++ "?" ++ q) = none := by
    rw [HttpContent.new.eq_def,
      resolve_none_of_query fs _ (query_mem_combinedPath root b q) hq]
  refine ⟨hnone, ?_⟩
  intro hparse hproto hmeth hpath
  have hfail : HttpContent.new fs root req.path = none := by
    rw [hpath]
    exact hnone
  cases h404 : HttpContent.new fs root "404.html" with
  | some c =>
    cases hrd : fs.readFile c.file_path with
    | some bytes =>
      left
      rw [handle_fallback_found fs now root buf req c bytes hparse hproto
        hmeth hfail h404 hrd, not_found_as_respond]
      exact (respond_some_facts now bytes
        ⟨c.content_headers.content_type, c.content_headers.cache_age,
          c.content_headers.compress && acceptsGzip req.headers⟩
        HttpStatus.NotFound (if req.method ≠ "HEAD" then true else false)).1
    | none =>
      right
      rw [handle_fallback_read_err fs now root buf req c hparse hproto hmeth
        hfail h404 hrd]
      rfl
  | none =>
    right
    rw [handle_fallback_none fs now root buf req hparse hproto hmeth hfail
      h404]
    rfl

/-- C10 witness: `/a.html?x=1` fails to resolve on the root where
`/a.html` resolves, and the connection ends in the 404/500 flow. -/
theorem query_string_witness :
    HttpContent.new fsHtml "root" ("/a.html" ++ "?" ++ "x=1") = none
    ∧ HttpContent.new fsHtml "root" "/a.html" =
        some { file_path := "root/a.html" }
    ∧ ((handle_connection fsHtml "NOW" "root"
          (some "GET /a.html?x=1 HTTP/1.1\r\n\r\n")).resp.status =
            HttpStatus.NotFound
        ∨ (handle_connection fsHtml "NOW" "root"
            (some "GET /a.html?x=1 HTTP/1.1\r\n\r\n")).resp.status =
            HttpStatus.ServerError) := by
  have hq : ∀ s : String, '?' ∈ s.data →
      fsHtml.isFile s = false ∧ fsHtml.isDir s = false := by
    intro s hs
    constructor
    · simp only [fsHtml, decide_eq_false_iff_not]
      rintro (rfl | rfl) <;> exact absurd hs (by decide)
    · simp only [fsHtml, decide_eq_false_iff_not]
      rintro rfl
      exact absurd hs (by decide)
  have H := query_string_resolution fsHtml "NOW" "root" "/a.html" "x=1"
    "GET /a.html?x=1 HTTP/1.1\r\n\r\n"
    { method := "GET", path := "/a.html?x=1", protocol := "HTTP/1.1",
      headers := [] } hq
  exact ⟨H.1, rfl, H.2 (by rfl) rfl (Or.inl rfl) (by rfl)⟩

end HttpServer
